import Mathlib

/-!
Verification development for the resumable file downloader
(`Downloader.cpp`, `CurlHandle.cpp`, `MockCurlHandle.h`).

The C++ engine is shallowly embedded:
* pure state-machine operations (`startDownload`, `pause`, `resume`,
  `cancel`, observer registry) become Lean functions over an `Engine`
  record;
* the worker-thread body `Downloader::doDownload` is embedded as a
  function from its concurrency-relevant inputs (the existing file
  size, the per-callback flag observations, the exit-time flag/state
  observations) to its outcome (final state, events, counters);
* the transport is the repository's own `MockCurlHandle::perform`,
  embedded with a fuel-indexed structural loop (the fuel strictly
  exceeds the number of loop iterations whenever the chunk size is
  positive, so the fuel-exhausted base case is unreachable there);
* `size_t` subtraction is modelled exactly with `sub64`
  (wrap-around modulo 2^64), `int64_t` counters as `Int`, and the
  `double` percent as the exact rational the source formula denotes;
* atomics read by the worker are modelled as explicit observation
  inputs: a schedule `Nat → ChunkCtl` gives the flag values seen at
  each loop iteration, and two extra inputs give the flag/state seen
  when the worker resolves the final outcome.
-/

namespace Downloader

/-- Lifecycle states, `DownloadState` from `IDownloaderObserver.h`. -/
inductive DownloadState
  | IDLE
  | DOWNLOADING
  | PAUSED
  | COMPLETED
  | CANCELLED
  | ERROR
deriving DecidableEq

/-- Transport result codes, `CurlResult` from `ICurlHandle.h`. -/
inductive CurlResult
  | OK
  | ABORTED_BY_CALLBACK
  | HTTP_ERROR
  | NETWORK_ERROR
  | RANGE_NOT_SATISFIED
  | OTHER_ERROR
deriving DecidableEq

/-- One observer notification, corresponding to the six
`IDownloaderObserver` callbacks.  The `double` percent of the source
is modelled as the exact rational value of the same formula. -/
inductive Event
  | progress (downloaded total : Int) (percent : Rat)
  | completed
  | error (msg : String)
  | paused
  | resumed
  | cancelled
deriving DecidableEq

/-- The percent formula shared by `Downloader::getStats` and the
progress callback: `downloaded / total * 100` when `total > 0`,
otherwise `-1`. -/
def percentOf (downloaded total : Int) : Rat :=
  if 0 < total then (downloaded : Rat) / (total : Rat) * 100 else -1

/-- Classifier: is this event a `completed()` notification? -/
def isCompletedEv : Event → Bool
  | .completed => true
  | _ => false

/-- Classifier: is this event an `error(msg)` notification? -/
def isErrorEv : Event → Bool
  | .error _ => true
  | _ => false

/-- Classifier: is this event a `cancelled()` notification? -/
def isCancelledEv : Event → Bool
  | .cancelled => true
  | _ => false

/-- Classifier: events that are not terminal
(`progress`, `paused`, `resumed`).  Every event raised from inside the
transport callbacks is of this kind. -/
def nonTerminal : Event → Bool
  | .progress _ _ _ => true
  | .paused => true
  | .resumed => true
  | _ => false

/-- Classifier: a progress event whose `downloaded` field is below the
given resume offset.  Used to state that no progress event ever
reports fewer bytes than the resume offset. -/
def progressBelow (offset : Nat) : Event → Bool
  | .progress dl _ _ => decide (dl < (offset : Int))
  | _ => false

/-- An observer handle: `none` models a null `IDownloaderObserver*`,
`some i` a distinct valid observer identity. -/
abbrev ObsPtr := Option Nat

/-- Embeds `Downloader::addObserver`: null is rejected; a handle already in
the list is not inserted again; otherwise it is appended. -/
def addObserver (observers : List ObsPtr) (observer : ObsPtr) : List ObsPtr :=
  match observer with
  | none => observers
  | some _ => if observer ∈ observers then observers else observers ++ [observer]

/-- Embeds `Downloader::removeObserver`: erase-remove of every element equal
to the handle (no null guard in the source). -/
def removeObserver (observers : List ObsPtr) (observer : ObsPtr) : List ObsPtr :=
  observers.filter (fun q => decide (q ≠ observer))

/-- The `notify*` helpers deliver one callback per list entry, in
order; so the number of times a given observer receives one event is
its multiplicity in the registry. -/
def receiveCount (observers : List ObsPtr) (o : ObsPtr) : Nat :=
  observers.countP (fun q => decide (q = o))

/-- A registry mutation issued by client code. -/
inductive RegOp
  | add (p : ObsPtr)
  | remove (p : ObsPtr)

/-- Apply one registry mutation. -/
def regStep (l : List ObsPtr) : RegOp → List ObsPtr
  | .add p => addObserver l p
  | .remove p => removeObserver l p

/-- The registry reached from the empty initial registry by an
arbitrary sequence of `addObserver` / `removeObserver` calls. -/
def applyOps (ops : List RegOp) : List ObsPtr :=
  ops.foldl regStep []

/-- The control-thread-visible engine state: the lifecycle state, the
two atomic counters, the two atomic control flags and the stored
request.  (The worker thread handle itself is not part of the data
model.) -/
structure Engine where
  state : DownloadState
  downloadedBytes : Int
  totalBytes : Int
  pauseRequested : Bool
  cancelRequested : Bool
  url : String
  outputPath : String
deriving DecidableEq

/-- Embeds `Downloader::startDownload`: rejected while `DOWNLOADING` or
`PAUSED`; otherwise stores the request, resets counters and flags,
moves to `DOWNLOADING` and reports success.  (Joining the previous
worker thread and launching the new one are thread operations outside
the state model.) -/
def startDownload (eng : Engine) (url outputPath : String) : Engine × Bool :=
  if eng.state = DownloadState.DOWNLOADING ∨ eng.state = DownloadState.PAUSED then
    (eng, false)
  else
    ({ state := DownloadState.DOWNLOADING
       downloadedBytes := 0
       totalBytes := 0
       pauseRequested := false
       cancelRequested := false
       url := url
       outputPath := outputPath }, true)

/-- Embeds `Downloader::pause`: compare-and-swap `DOWNLOADING → PAUSED`; on
success sets `pauseRequested`. -/
def pause (eng : Engine) : Engine :=
  if eng.state = DownloadState.DOWNLOADING then
    { eng with state := DownloadState.PAUSED, pauseRequested := true }
  else eng

/-- Embeds `Downloader::resume`: compare-and-swap `PAUSED → DOWNLOADING`; on
success clears `pauseRequested` (the condition-variable wakeup is a
thread operation). -/
def resume (eng : Engine) : Engine :=
  if eng.state = DownloadState.PAUSED then
    { eng with state := DownloadState.DOWNLOADING, pauseRequested := false }
  else eng

/-- Embeds `Downloader::cancel`: unconditionally sets `cancelRequested` and
clears `pauseRequested` (the wakeup is a thread operation). -/
def cancel (eng : Engine) : Engine :=
  { eng with cancelRequested := true, pauseRequested := false }

/-- The modulus of `size_t` arithmetic in the source, `2^64`. -/
def U64 : Nat := 18446744073709551616

/-- Wrap-around `size_t` subtraction `a - b` modulo `2^64`
(exact whenever `b ≤ a` and `a < 2^64`). -/
def sub64 (a b : Nat) : Nat :=
  (a + U64 - b) % U64

/-- The worker's shared counters (`downloadedBytes_`, `totalBytes_`)
plus a ghost trace recording the value pair after every store to
either counter, in program order. -/
structure Ctrs where
  d : Int
  t : Int
  trace : List (Int × Int)
deriving DecidableEq

/-- The flag values the worker observes during one loop iteration of
the transport: the `cancelRequested_` load in the progress callback,
the `cancelRequested_` and `pauseRequested_` loads in the write
callback, whether a pause wait is released by cancel (rather than
resume), and whether the file write fails. -/
structure ChunkCtl where
  cancelAtProgress : Bool
  cancelAtWrite : Bool
  pauseAtWrite : Bool
  waitEndsInCancel : Bool
  writeFails : Bool
deriving DecidableEq

/-- Embeds `Downloader::waitIfPaused`: emits `paused()`, then waits until
resume or cancel; cancel yields `false` with no `resumed()` event,
resume yields `true` after emitting `resumed()`. -/
def waitIfPaused (ctl : ChunkCtl) : Bool × List Event :=
  if ctl.waitEndsInCancel then (false, [Event.paused])
  else (true, [Event.paused, Event.resumed])

/-- The write callback installed by `Downloader::doDownload`
(the lambda passed to `setWriteCallback`): abort on cancel; block in
`waitIfPaused` when a pause is pending (abort if that wait is released
by cancel); abort without advancing the counter when the file write
fails; otherwise advance `downloadedBytes_` by the chunk size and
return the size.  Returns the accepted byte count, the updated
counters and the events emitted. -/
def writeCallback (ctl : ChunkCtl) (c : Ctrs) (size : Nat) :
    Nat × Ctrs × List Event :=
  if ctl.cancelAtWrite then (0, c, [])
  else
    let wp := if ctl.pauseAtWrite then waitIfPaused ctl else (true, [])
    if wp.1 = false then (0, c, wp.2)
    else if ctl.writeFails then (0, c, wp.2)
    else (size,
          { d := c.d + (size : Int), t := c.t
            trace := c.trace ++ [(c.d + (size : Int), c.t)] },
          wp.2)

/-- The progress callback installed by `Downloader::doDownload`
(the lambda passed to `setProgressCallback`): abort (return `true`,
i.e. a non-zero C return) on cancel; otherwise, when the transport
reports a positive total for the current request, store
`totalBytes_ := dltotal + (downloadedBytes_ - dlnow)`; then emit one
progress event with the current counters and percent. -/
def progressCallback (cancelSeen : Bool) (c : Ctrs) (dltotal dlnow : Int) :
    Bool × Ctrs × List Event :=
  if cancelSeen then (true, c, [])
  else
    let baseOffset := c.d - dlnow
    let c1 := if 0 < dltotal then
        { d := c.d, t := dltotal + baseOffset
          trace := c.trace ++ [(c.d, dltotal + baseOffset)] }
      else c
    (false, c1, [Event.progress c1.d c1.t (percentOf c1.d c1.t)])

/-- Mock transport configuration, `MockConfig` from `MockCurlHandle.h`
(the chunk delay is a timing
knob with no behavioural content and is omitted). -/
structure MockConfig where
  totalSize : Nat
  chunkSize : Nat
  returnResult : CurlResult
  httpCode : Int
  errorMessage : String
  supportsRange : Bool
deriving DecidableEq

/-- Result of one run of the mock transfer loop. -/
structure LoopOut where
  aborted : Bool
  idx : Nat
  sent : Nat
  ctrs : Ctrs
  events : List Event
deriving DecidableEq

/-- The body of one iteration of the `while (sent < totalSize)` loop
of `MockCurlHandle::perform`: compute `remaining` and `toSend`, fire
the progress callback (a non-zero return aborts), fire the write
callback with `toSend` bytes (a short write aborts — note that with
`toSend = 0` a zero return is a full write, exactly as in the source).
Returns whether the loop continues, the bytes to advance `sent` by,
and the updated counters and events. -/
def mockStep (cfg : MockConfig) (ctl : ChunkCtl) (resumeFrom sent : Nat)
    (c : Ctrs) : Bool × Nat × Ctrs × List Event :=
  let remaining := cfg.totalSize - sent
  let toSend := min cfg.chunkSize remaining
  let dltotal : Int := (sub64 cfg.totalSize resumeFrom : Nat)
  let dlnow : Int := (sub64 sent resumeFrom : Nat)
  let pr := progressCallback ctl.cancelAtProgress c dltotal dlnow
  if pr.1 then (false, 0, pr.2.1, pr.2.2)
  else
    let wr := writeCallback ctl pr.2.1 toSend
    if wr.1 ≠ toSend then (false, 0, wr.2.1, pr.2.2 ++ wr.2.2)
    else (true, toSend, wr.2.1, pr.2.2 ++ wr.2.2)

/-- The `while (sent < totalSize)` loop of `MockCurlHandle::perform`,
driving the two worker callbacks.  `sched` supplies the flag values
observed at iteration `idx`.  The `fuel` argument only forces
structural termination: when the chunk size is positive every
iteration sends at least one byte, so a fuel exceeding
`totalSize - sent` is never exhausted (with chunk size zero the source
spins forever; the fuel-exhausted base case stands in for that
unreachable divergence). -/
def mockLoop (cfg : MockConfig) (sched : Nat → ChunkCtl) (resumeFrom : Nat) :
    Nat → Nat → Nat → Ctrs → LoopOut
  | 0, idx, sent, c =>
    { aborted := false, idx := idx, sent := sent, ctrs := c, events := [] }
  | fuel + 1, idx, sent, c =>
    if sent < cfg.totalSize then
      match mockStep cfg (sched idx) resumeFrom sent c with
      | (false, _, c1, evs) =>
        { aborted := true, idx := idx, sent := sent, ctrs := c1, events := evs }
      | (true, toSend, c1, evs) =>
        let rest := mockLoop cfg sched resumeFrom fuel (idx + 1) (sent + toSend) c1
        { rest with events := evs ++ rest.events }
    else
      { aborted := false, idx := idx, sent := sent, ctrs := c, events := [] }

/-- What `MockCurlHandle::perform` leaves behind: its result code, the
HTTP status `getHttpResponseCode` will report, the counters and the
events raised through the callbacks. -/
structure MockOut where
  result : CurlResult
  httpCode : Int
  ctrs : Ctrs
  events : List Event
deriving DecidableEq

/-- Embeds `MockCurlHandle::getLastError`. -/
def mockLastError (cfg : MockConfig) : String :=
  if cfg.errorMessage = "" then "Mock error" else cfg.errorMessage

/-- Embeds `MockCurlHandle::perform`: non-OK/non-abort configured results
return immediately; a positive resume offset against a server without
range support reports 416 / `RANGE_NOT_SATISFIED`; otherwise the
transfer loop runs and, if it was not aborted, a final progress
callback fires with `dltotal = totalSize` (the full size) and
`dlnow = totalSize - resumeFrom`, its return value ignored. -/
def mockPerform (cfg : MockConfig) (sched : Nat → ChunkCtl)
    (resumeFrom : Nat) (c0 : Ctrs) : MockOut :=
  if cfg.returnResult ≠ CurlResult.OK ∧
      cfg.returnResult ≠ CurlResult.ABORTED_BY_CALLBACK then
    { result := cfg.returnResult, httpCode := cfg.httpCode, ctrs := c0, events := [] }
  else if 0 < resumeFrom ∧ ¬ cfg.supportsRange then
    { result := CurlResult.RANGE_NOT_SATISFIED, httpCode := 416, ctrs := c0, events := [] }
  else
    let lp := mockLoop cfg sched resumeFrom (cfg.totalSize + 1) 0 resumeFrom c0
    if lp.aborted then
      { result := CurlResult.ABORTED_BY_CALLBACK, httpCode := cfg.httpCode
        ctrs := lp.ctrs, events := lp.events }
    else
      let dltotal : Int := (cfg.totalSize : Int)
      let dlnow : Int := (sub64 cfg.totalSize resumeFrom : Nat)
      match progressCallback (sched lp.idx).cancelAtProgress lp.ctrs dltotal dlnow with
      | (_, c1, evs1) =>
        { result := cfg.returnResult, httpCode := cfg.httpCode
          ctrs := c1, events := lp.events ++ evs1 }

/-- The counters as `doDownload` seeds them: `downloadedBytes_` is
stored with the resume offset, `totalBytes_` is still `0`. -/
def seedCtrs (resumeFrom : Nat) : Ctrs :=
  { d := (resumeFrom : Int), t := 0, trace := [((resumeFrom : Int), 0)] }

/-- Step (6) of `Downloader::doDownload` — outcome resolution after
`perform` returns: the `cancelRequested_` load wins over everything;
a state still `PAUSED` is converted to `CANCELLED`; result `OK` splits
on the HTTP status (`≥ 400` is an error); the remaining results map to
`ERROR` with the corresponding message. -/
def resolveOutcome (cancelAtExit : Bool) (stateAtExit : DownloadState)
    (result : CurlResult) (httpCode : Int) (lastError : String)
    (downloaded totalB : Int) : DownloadState × List Event :=
  if cancelAtExit then (DownloadState.CANCELLED, [Event.cancelled])
  else if stateAtExit = DownloadState.PAUSED then
    (DownloadState.CANCELLED, [Event.cancelled])
  else
    match result with
    | CurlResult.OK =>
      if 400 ≤ httpCode then
        (DownloadState.ERROR, [Event.error (r"HTTP error: " ++ toString httpCode)])
      else
        let total := if 0 < totalB then totalB else downloaded
        (DownloadState.COMPLETED,
         [Event.progress downloaded total 100, Event.completed])
    | CurlResult.ABORTED_BY_CALLBACK =>
      (DownloadState.ERROR, [Event.error (r"Download aborted: " ++ lastError)])
    | CurlResult.NETWORK_ERROR =>
      (DownloadState.ERROR, [Event.error (r"Network error: " ++ lastError)])
    | CurlResult.RANGE_NOT_SATISFIED =>
      (DownloadState.ERROR,
       [Event.error (r"Server does not support resume (Range not satisfied)")])
    | _ =>
      (DownloadState.ERROR, [Event.error (r"Download failed: " ++ lastError)])

/-- How one full run of `Downloader::doDownload` ends: the state the
worker stores, the counters, the events in emission order, the
arguments of the `setResumeFrom` calls made on the transport, and the
`perform` result with the HTTP status it reported (`none` when the
worker failed before reaching the transport). -/
structure DoOutcome where
  finalState : DownloadState
  ctrs : Ctrs
  events : List Event
  resumeFromCalls : List Nat
  performResult : Option CurlResult
  performHttpCode : Option Int
deriving DecidableEq

/-- Embeds `Downloader::doDownload`, driven by the repository's mock
transport.  Inputs: the stored output path, the existing byte size of
the destination file (`0` when absent), whether opening the output or
creating the transport handle fails, the mock configuration, the
schedule of flag observations inside callbacks, and the
`cancelRequested_` / `state_` values the worker reads after `perform`
returns. -/
def doDownload (outputPath : String) (fileSize : Nat)
    (openFails factoryFails : Bool) (cfg : MockConfig)
    (sched : Nat → ChunkCtl) (cancelAtExit : Bool)
    (stateAtExit : DownloadState) : DoOutcome :=
  let resumeFrom := fileSize
  let c0 := seedCtrs resumeFrom
  if openFails then
    { finalState := DownloadState.ERROR, ctrs := c0
      events := [Event.error (r"Failed to open output file: " ++ outputPath)]
      resumeFromCalls := [], performResult := none, performHttpCode := none }
  else if factoryFails then
    { finalState := DownloadState.ERROR, ctrs := c0
      events := [Event.error (r"Failed to create curl handle")]
      resumeFromCalls := [], performResult := none, performHttpCode := none }
  else
    let resumeFromCalls := if 0 < resumeFrom then [resumeFrom] else []
    let r := mockPerform cfg sched resumeFrom c0
    let res := resolveOutcome cancelAtExit stateAtExit r.result r.httpCode
      (mockLastError cfg) r.ctrs.d r.ctrs.t
    { finalState := res.1, ctrs := r.ctrs, events := r.events ++ res.2
      resumeFromCalls := resumeFromCalls
      performResult := some r.result, performHttpCode := some r.httpCode }

/-- Trace well-ordering: the recorded `downloadedBytes_` values are
monotonically non-decreasing along the trace. -/
def traceMono : List (Int × Int) → Bool
  | [] => true
  | [_] => true
  | p :: q :: rest => decide (p.1 ≤ q.1) && traceMono (q :: rest)

/-- A counter-pair violating `totalBytes > 0 → bytesTransferred ≤ totalBytes`. -/
def ctrViol (p : Int × Int) : Bool :=
  decide (0 < p.2) && decide (p.2 < p.1)

/-- Well-formedness of a counter store trace relative to the current
`downloadedBytes_` value `d`: the recorded transferred bytes never
decrease, never exceed `d`, and no recorded pair violates
`totalBytes > 0 → bytesTransferred ≤ totalBytes`. -/
def TraceOkOn (d : Int) (trace : List (Int × Int)) : Prop :=
  traceMono trace = true ∧
  trace.all (fun p => decide (p.1 ≤ d)) = true ∧
  trace.countP ctrViol = 0

/-- Specialisation of `TraceOkOn` to a counter record. -/
def TraceOk (c : Ctrs) : Prop :=
  TraceOkOn c.d c.trace

/-- The all-clear schedule: no cancel, pause or write failure is
observed at any callback. -/
def schedNone : Nat → ChunkCtl := fun _ =>
  { cancelAtProgress := false, cancelAtWrite := false, pauseAtWrite := false
    waitEndsInCancel := false, writeFails := false }

/-- A destination path used by the concrete scenarios. -/
def outPath : String := "out.bin"

/-- A source URL used by the concrete scenarios. -/
def srcUrl : String := "http://example.com/file.bin"

/-- An engine mid-attempt: the worker stored `DOWNLOADING` at start
and has not yet resolved the outcome. -/
def engActive : Engine :=
  { state := DownloadState.DOWNLOADING, downloadedBytes := 0, totalBytes := 0
    pauseRequested := false, cancelRequested := false
    url := srcUrl, outputPath := outPath }

/-- An idle engine about to accept a fresh `startDownload`. -/
def engIdle : Engine :=
  { state := DownloadState.IDLE, downloadedBytes := 0, totalBytes := 0
    pauseRequested := false, cancelRequested := false
    url := srcUrl, outputPath := outPath }

/-- Mock scenario of the spec: total size 4096 bytes, chunk size
1024, success result, status 200. -/
def cfg4096 : MockConfig :=
  { totalSize := 4096, chunkSize := 1024, returnResult := CurlResult.OK
    httpCode := 200, errorMessage := "", supportsRange := true }

/-- Mock scenario: a small 2048-byte transfer, success result,
status 200. -/
def cfg2048 : MockConfig :=
  { totalSize := 2048, chunkSize := 1024, returnResult := CurlResult.OK
    httpCode := 200, errorMessage := "", supportsRange := true }

/-- Mock scenario of the spec: success result, status 404, zero
body. -/
def cfg404 : MockConfig :=
  { totalSize := 0, chunkSize := 1024, returnResult := CurlResult.OK
    httpCode := 404, errorMessage := "", supportsRange := true }

/-- Mock scenario for resuming: virtual size 2048, chunk 1024,
status 206 (partial content). -/
def cfgResume : MockConfig :=
  { totalSize := 2048, chunkSize := 1024, returnResult := CurlResult.OK
    httpCode := 206, errorMessage := "", supportsRange := true }

/-! ### Helper lemmas -/

lemma sub64_eq {a b : Nat} (hba : b ≤ a) (ha : a < U64) : sub64 a b = a - b := by
  unfold sub64 U64 at *
  omega

lemma traceMono_append_one :
    ∀ (l : List (Int × Int)) (p : Int × Int),
      traceMono l = true → l.all (fun q => decide (q.1 ≤ p.1)) = true →
      traceMono (l ++ [p]) = true
  | [], p, _, _ => by simp [traceMono]
  | [q], p, _, ha => by
    simp only [List.all_cons, List.all_nil, Bool.and_true, decide_eq_true_eq] at ha
    simp [traceMono, ha]
  | q :: q' :: rest, p, hm, ha => by
    simp only [traceMono, Bool.and_eq_true, decide_eq_true_eq] at hm
    simp only [List.all_cons, Bool.and_eq_true, decide_eq_true_eq] at ha
    have ih := traceMono_append_one (q' :: rest) p hm.2
      (by simp only [List.all_cons, Bool.and_eq_true, decide_eq_true_eq]
          exact ⟨ha.2.1, ha.2.2⟩)
    simp only [List.cons_append, traceMono, Bool.and_eq_true, decide_eq_true_eq]
    exact ⟨hm.1, by simpa [List.cons_append] using ih⟩

lemma traceOkOn_append {d : Int} {trace : List (Int × Int)} (d' t' : Int)
    (h : TraceOkOn d trace) (hd : d ≤ d') (hv : 0 < t' → d' ≤ t') :
    TraceOkOn d' (trace ++ [(d', t')]) := by
  obtain ⟨hm, ha, hc⟩ := h
  refine ⟨traceMono_append_one _ _ hm ?_, ?_, ?_⟩
  · simp only [List.all_eq_true, decide_eq_true_eq] at ha ⊢
    exact fun q hq => le_trans (ha q hq) hd
  · simp only [List.all_append, List.all_cons, List.all_nil, Bool.and_eq_true,
      List.all_eq_true, decide_eq_true_eq] at ha ⊢
    exact ⟨fun q hq => le_trans (ha q hq) hd, ⟨le_refl d', trivial⟩⟩
  · rw [List.countP_append, hc]
    have : ctrViol (d', t') = false := by
      unfold ctrViol
      by_cases h0 : 0 < t'
      · simp [h0, not_lt.mpr (hv h0)]
      · simp [h0]
    simp [List.countP_cons, this]

lemma traceOkOn_mono {d d' : Int} {trace : List (Int × Int)}
    (h : TraceOkOn d trace) (hd : d ≤ d') : TraceOkOn d' trace := by
  obtain ⟨hm, ha, hc⟩ := h
  refine ⟨hm, ?_, hc⟩
  simp only [List.all_eq_true, decide_eq_true_eq] at ha ⊢
  exact fun q hq => le_trans (ha q hq) hd

lemma progressCallback_true (c : Ctrs) (dltotal dlnow : Int) :
    progressCallback true c dltotal dlnow = (true, c, []) := by
  simp [progressCallback]

lemma progressCallback_false_pos (c : Ctrs) (dltotal dlnow : Int)
    (h : 0 < dltotal) :
    progressCallback false c dltotal dlnow =
      (false,
       { d := c.d, t := dltotal + (c.d - dlnow)
         trace := c.trace ++ [(c.d, dltotal + (c.d - dlnow))] },
       [Event.progress c.d (dltotal + (c.d - dlnow))
          (percentOf c.d (dltotal + (c.d - dlnow)))]) := by
  simp [progressCallback, h]

lemma progressCallback_false_nonpos (c : Ctrs) (dltotal dlnow : Int)
    (h : ¬ 0 < dltotal) :
    progressCallback false c dltotal dlnow =
      (false, c, [Event.progress c.d c.t (percentOf c.d c.t)]) := by
  simp [progressCallback, h]

lemma writeCallback_cases (ctl : ChunkCtl) (c : Ctrs) (size : Nat) :
    (∃ evs, (evs = ([] : List Event) ∨ evs = [Event.paused] ∨
        evs = [Event.paused, Event.resumed]) ∧
      writeCallback ctl c size = (0, c, evs)) ∨
    (∃ evs, (evs = ([] : List Event) ∨ evs = [Event.paused, Event.resumed]) ∧
      writeCallback ctl c size =
        (size,
         { d := c.d + (size : Int), t := c.t
           trace := c.trace ++ [(c.d + (size : Int), c.t)] }, evs)) := by
  by_cases hcw : ctl.cancelAtWrite
  · exact Or.inl ⟨[], Or.inl rfl, by simp [writeCallback, hcw]⟩
  · by_cases hpw : ctl.pauseAtWrite
    · by_cases hwc : ctl.waitEndsInCancel
      · exact Or.inl ⟨[Event.paused], Or.inr (Or.inl rfl),
          by simp [writeCallback, waitIfPaused, hcw, hpw, hwc]⟩
      · by_cases hwf : ctl.writeFails
        · exact Or.inl ⟨[Event.paused, Event.resumed], Or.inr (Or.inr rfl),
            by simp [writeCallback, waitIfPaused, hcw, hpw, hwc, hwf]⟩
        · exact Or.inr ⟨[Event.paused, Event.resumed], Or.inr rfl,
            by simp [writeCallback, waitIfPaused, hcw, hpw, hwc, hwf]⟩
    · by_cases hwf : ctl.writeFails
      · exact Or.inl ⟨[], Or.inl rfl, by simp [writeCallback, hcw, hpw, hwf]⟩
      · exact Or.inr ⟨[], Or.inl rfl, by simp [writeCallback, hcw, hpw, hwf]⟩

lemma progressBelow_of_le {off : Nat} {d t : Int} {p : Rat} (h : (off : Int) ≤ d) :
    progressBelow off (Event.progress d t p) = false := by
  simp [progressBelow]
  omega

lemma writeEvs_facts (off : Nat) {evs : List Event}
    (h : evs = ([] : List Event) ∨ evs = [Event.paused] ∨
      evs = [Event.paused, Event.resumed]) :
    ∀ ev ∈ evs, nonTerminal ev = true ∧ progressBelow off ev = false := by
  rcases h with rfl | rfl | rfl <;> intro ev hev
  · simp at hev
  · simp at hev
    subst hev
    exact ⟨rfl, rfl⟩
  · rcases List.mem_cons.mp hev with rfl | hev2
    · exact ⟨rfl, rfl⟩
    · simp at hev2
      subst hev2
      exact ⟨rfl, rfl⟩

lemma progress_cons_facts (off : Nat) {d t : Int} {p : Rat} {evs : List Event}
    (hd : (off : Int) ≤ d)
    (hrest : ∀ ev ∈ evs, nonTerminal ev = true ∧ progressBelow off ev = false) :
    ∀ ev ∈ Event.progress d t p :: evs,
      nonTerminal ev = true ∧ progressBelow off ev = false := by
  intro ev hev
  rcases List.mem_cons.mp hev with rfl | hev2
  · exact ⟨rfl, progressBelow_of_le hd⟩
  · exact hrest ev hev2

lemma mockStep_light (cfg : MockConfig) (ctl : ChunkCtl) (resumeFrom sent : Nat)
    (c : Ctrs) (off : Nat) (hoff : (off : Int) ≤ c.d) :
    ∃ cont toSend c' evs,
      mockStep cfg ctl resumeFrom sent c = (cont, toSend, c', evs) ∧
      c.d ≤ c'.d ∧
      (∃ tl, c'.trace = c.trace ++ tl) ∧
      (∀ ev ∈ evs, nonTerminal ev = true ∧ progressBelow off ev = false) := by
  by_cases hcp : ctl.cancelAtProgress
  · refine ⟨false, 0, c, [], ?_, le_refl _, ⟨[], by simp⟩, by simp⟩
    simp [mockStep, hcp, progressCallback_true]
  · by_cases hdl : (0 : Int) < ((sub64 cfg.totalSize resumeFrom : Nat) : Int)
    · have hp := progressCallback_false_pos c
        ((sub64 cfg.totalSize resumeFrom : Nat) : Int)
        ((sub64 sent resumeFrom : Nat) : Int) hdl
      rcases writeCallback_cases ctl
          { d := c.d,
            t := ((sub64 cfg.totalSize resumeFrom : Nat) : Int) +
              (c.d - ((sub64 sent resumeFrom : Nat) : Int)),
            trace := c.trace ++
              [(c.d, ((sub64 cfg.totalSize resumeFrom : Nat) : Int) +
                (c.d - ((sub64 sent resumeFrom : Nat) : Int)))] }
          (min cfg.chunkSize (cfg.totalSize - sent)) with
        ⟨evs2, hevs2, heqw⟩ | ⟨evs2, hevs2, heqw⟩
      · by_cases hts : min cfg.chunkSize (cfg.totalSize - sent) = 0
        · refine ⟨true, min cfg.chunkSize (cfg.totalSize - sent),
            { d := c.d,
              t := ((sub64 cfg.totalSize resumeFrom : Nat) : Int) +
                (c.d - ((sub64 sent resumeFrom : Nat) : Int)),
              trace := c.trace ++
                [(c.d, ((sub64 cfg.totalSize resumeFrom : Nat) : Int) +
                  (c.d - ((sub64 sent resumeFrom : Nat) : Int)))] },
            Event.progress c.d (((sub64 cfg.totalSize resumeFrom : Nat) : Int) +
              (c.d - ((sub64 sent resumeFrom : Nat) : Int)))
              (percentOf c.d (((sub64 cfg.totalSize resumeFrom : Nat) : Int) +
                (c.d - ((sub64 sent resumeFrom : Nat) : Int)))) :: evs2,
            ?_, le_refl _, ⟨_, rfl⟩,
            progress_cons_facts off hoff (writeEvs_facts off hevs2)⟩
          rw [hts] at heqw
          simp [mockStep, hcp, hp, heqw, hts]
        · refine ⟨false, 0,
            { d := c.d,
              t := ((sub64 cfg.totalSize resumeFrom : Nat) : Int) +
                (c.d - ((sub64 sent resumeFrom : Nat) : Int)),
              trace := c.trace ++
                [(c.d, ((sub64 cfg.totalSize resumeFrom : Nat) : Int) +
                  (c.d - ((sub64 sent resumeFrom : Nat) : Int)))] },
            Event.progress c.d (((sub64 cfg.totalSize resumeFrom : Nat) : Int) +
              (c.d - ((sub64 sent resumeFrom : Nat) : Int)))
              (percentOf c.d (((sub64 cfg.totalSize resumeFrom : Nat) : Int) +
                (c.d - ((sub64 sent resumeFrom : Nat) : Int)))) :: evs2,
            ?_, le_refl _, ⟨_, rfl⟩,
            progress_cons_facts off hoff (writeEvs_facts off hevs2)⟩
          have hne : (0 : Nat) ≠ min cfg.chunkSize (cfg.totalSize - sent) :=
            fun h => hts h.symm
          simp [mockStep, hcp, hp, heqw, hne]
      · refine ⟨true, min cfg.chunkSize (cfg.totalSize - sent),
          { d := c.d + ((min cfg.chunkSize (cfg.totalSize - sent) : Nat) : Int),
            t := ((sub64 cfg.totalSize resumeFrom : Nat) : Int) +
              (c.d - ((sub64 sent resumeFrom : Nat) : Int)),
            trace := (c.trace ++
              [(c.d, ((sub64 cfg.totalSize resumeFrom : Nat) : Int) +
                (c.d - ((sub64 sent resumeFrom : Nat) : Int)))]) ++
              [(c.d + ((min cfg.chunkSize (cfg.totalSize - sent) : Nat) : Int),
                ((sub64 cfg.totalSize resumeFrom : Nat) : Int) +
                  (c.d - ((sub64 sent resumeFrom : Nat) : Int)))] },
          Event.progress c.d (((sub64 cfg.totalSize resumeFrom : Nat) : Int) +
            (c.d - ((sub64 sent resumeFrom : Nat) : Int)))
            (percentOf c.d (((sub64 cfg.totalSize resumeFrom : Nat) : Int) +
              (c.d - ((sub64 sent resumeFrom : Nat) : Int)))) :: evs2,
          ?_, by simp, ⟨_, by rw [List.append_assoc]⟩,
          progress_cons_facts off hoff
            (writeEvs_facts off (hevs2.elim Or.inl (fun h2 => Or.inr (Or.inr h2))))⟩
        simp [mockStep, hcp, hp, heqw]
    · have hp := progressCallback_false_nonpos c
        ((sub64 cfg.totalSize resumeFrom : Nat) : Int)
        ((sub64 sent resumeFrom : Nat) : Int) hdl
      rcases writeCallback_cases ctl c (min cfg.chunkSize (cfg.totalSize - sent)) with
        ⟨evs2, hevs2, heqw⟩ | ⟨evs2, hevs2, heqw⟩
      · by_cases hts : min cfg.chunkSize (cfg.totalSize - sent) = 0
        · refine ⟨true, min cfg.chunkSize (cfg.totalSize - sent), c,
            Event.progress c.d c.t (percentOf c.d c.t) :: evs2,
            ?_, le_refl _, ⟨[], by simp⟩,
            progress_cons_facts off hoff (writeEvs_facts off hevs2)⟩
          rw [hts] at heqw
          simp [mockStep, hcp, hp, heqw, hts]
        · refine ⟨false, 0, c,
            Event.progress c.d c.t (percentOf c.d c.t) :: evs2,
            ?_, le_refl _, ⟨[], by simp⟩,
            progress_cons_facts off hoff (writeEvs_facts off hevs2)⟩
          have hne : (0 : Nat) ≠ min cfg.chunkSize (cfg.totalSize - sent) :=
            fun h => hts h.symm
          simp [mockStep, hcp, hp, heqw, hne]
      · refine ⟨true, min cfg.chunkSize (cfg.totalSize - sent),
          { d := c.d + ((min cfg.chunkSize (cfg.totalSize - sent) : Nat) : Int),
            t := c.t,
            trace := c.trace ++
              [(c.d + ((min cfg.chunkSize (cfg.totalSize - sent) : Nat) : Int), c.t)] },
          Event.progress c.d c.t (percentOf c.d c.t) :: evs2,
          ?_, by simp, ⟨_, rfl⟩,
          progress_cons_facts off hoff
            (writeEvs_facts off (hevs2.elim Or.inl (fun h2 => Or.inr (Or.inr h2))))⟩
        simp [mockStep, hcp, hp, heqw]

lemma mockStep_inv (cfg : MockConfig) (ctl : ChunkCtl) (resumeFrom sent : Nat)
    (c : Ctrs) (hU : cfg.totalSize < U64) (hrs : resumeFrom ≤ sent)
    (hst : sent < cfg.totalSize) (hd : c.d = (sent : Int))
    (ht : c.t = 0 ∨ c.t = (cfg.totalSize : Int)) (hTr : TraceOk c) :
    ∃ cont toSend c' evs,
      mockStep cfg ctl resumeFrom sent c = (cont, toSend, c', evs) ∧
      (cont = true ∨ toSend = 0) ∧
      sent + toSend ≤ cfg.totalSize ∧
      c'.d = ((sent + toSend : Nat) : Int) ∧
      (c'.t = 0 ∨ c'.t = (cfg.totalSize : Int)) ∧
      TraceOk c' ∧
      (∃ tl, c'.trace = c.trace ++ tl) := by
  have hTeq : sub64 cfg.totalSize resumeFrom = cfg.totalSize - resumeFrom :=
    sub64_eq (le_trans hrs (le_of_lt hst)) hU
  have hNeq : sub64 sent resumeFrom = sent - resumeFrom :=
    sub64_eq hrs (lt_trans hst hU)
  have hTpos : (0 : Int) < ((sub64 cfg.totalSize resumeFrom : Nat) : Int) := by
    rw [hTeq]
    omega
  have ht' : ((sub64 cfg.totalSize resumeFrom : Nat) : Int) +
      (c.d - ((sub64 sent resumeFrom : Nat) : Int)) = (cfg.totalSize : Int) := by
    rw [hTeq, hNeq, hd]
    omega
  have hsend : min cfg.chunkSize (cfg.totalSize - sent) ≤ cfg.totalSize - sent :=
    min_le_right _ _
  by_cases hcp : ctl.cancelAtProgress
  · refine ⟨false, 0, c, [], ?_, Or.inr rfl, by omega, by omega, ht, hTr, ⟨[], by simp⟩⟩
    simp [mockStep, hcp, progressCallback_true]
  · have hp := progressCallback_false_pos c
      ((sub64 cfg.totalSize resumeFrom : Nat) : Int)
      ((sub64 sent resumeFrom : Nat) : Int) hTpos
    have hTr1 : TraceOkOn c.d (c.trace ++
        [(c.d, ((sub64 cfg.totalSize resumeFrom : Nat) : Int) +
          (c.d - ((sub64 sent resumeFrom : Nat) : Int)))]) :=
      traceOkOn_append _ _ hTr (le_refl _) (fun _ => by rw [ht', hd]; omega)
    rcases writeCallback_cases ctl
        { d := c.d,
          t := ((sub64 cfg.totalSize resumeFrom : Nat) : Int) +
            (c.d - ((sub64 sent resumeFrom : Nat) : Int)),
          trace := c.trace ++
            [(c.d, ((sub64 cfg.totalSize resumeFrom : Nat) : Int) +
              (c.d - ((sub64 sent resumeFrom : Nat) : Int)))] }
        (min cfg.chunkSize (cfg.totalSize - sent)) with
      ⟨evs2, hevs2, heqw⟩ | ⟨evs2, hevs2, heqw⟩
    · by_cases hts : min cfg.chunkSize (cfg.totalSize - sent) = 0
      · refine ⟨true, min cfg.chunkSize (cfg.totalSize - sent),
          { d := c.d,
            t := ((sub64 cfg.totalSize resumeFrom : Nat) : Int) +
              (c.d - ((sub64 sent resumeFrom : Nat) : Int)),
            trace := c.trace ++
              [(c.d, ((sub64 cfg.totalSize resumeFrom : Nat) : Int) +
                (c.d - ((sub64 sent resumeFrom : Nat) : Int)))] },
          Event.progress c.d (((sub64 cfg.totalSize resumeFrom : Nat) : Int) +
            (c.d - ((sub64 sent resumeFrom : Nat) : Int)))
            (percentOf c.d (((sub64 cfg.totalSize resumeFrom : Nat) : Int) +
              (c.d - ((sub64 sent resumeFrom : Nat) : Int)))) :: evs2,
          ?_, Or.inl rfl, by omega, by simp [hts, hd],
          Or.inr ht', hTr1, ⟨_, rfl⟩⟩
        rw [hts] at heqw
        simp [mockStep, hcp, hp, heqw, hts]
      · refine ⟨false, 0,
          { d := c.d,
            t := ((sub64 cfg.totalSize resumeFrom : Nat) : Int) +
              (c.d - ((sub64 sent resumeFrom : Nat) : Int)),
            trace := c.trace ++
              [(c.d, ((sub64 cfg.totalSize resumeFrom : Nat) : Int) +
                (c.d - ((sub64 sent resumeFrom : Nat) : Int)))] },
          Event.progress c.d (((sub64 cfg.totalSize resumeFrom : Nat) : Int) +
            (c.d - ((sub64 sent resumeFrom : Nat) : Int)))
            (percentOf c.d (((sub64 cfg.totalSize resumeFrom : Nat) : Int) +
              (c.d - ((sub64 sent resumeFrom : Nat) : Int)))) :: evs2,
          ?_, Or.inr rfl, by omega, by simp [hd], Or.inr ht', hTr1, ⟨_, rfl⟩⟩
        have hne : (0 : Nat) ≠ min cfg.chunkSize (cfg.totalSize - sent) :=
          fun h => hts h.symm
        simp [mockStep, hcp, hp, heqw, hne]
    · refine ⟨true, min cfg.chunkSize (cfg.totalSize - sent),
        { d := c.d + ((min cfg.chunkSize (cfg.totalSize - sent) : Nat) : Int),
          t := ((sub64 cfg.totalSize resumeFrom : Nat) : Int) +
            (c.d - ((sub64 sent resumeFrom : Nat) : Int)),
          trace := (c.trace ++
            [(c.d, ((sub64 cfg.totalSize resumeFrom : Nat) : Int) +
              (c.d - ((sub64 sent resumeFrom : Nat) : Int)))]) ++
            [(c.d + ((min cfg.chunkSize (cfg.totalSize - sent) : Nat) : Int),
              ((sub64 cfg.totalSize resumeFrom : Nat) : Int) +
                (c.d - ((sub64 sent resumeFrom : Nat) : Int)))] },
        Event.progress c.d (((sub64 cfg.totalSize resumeFrom : Nat) : Int) +
          (c.d - ((sub64 sent resumeFrom : Nat) : Int)))
          (percentOf c.d (((sub64 cfg.totalSize resumeFrom : Nat) : Int) +
            (c.d - ((sub64 sent resumeFrom : Nat) : Int)))) :: evs2,
        ?_, Or.inl rfl, by omega, by rw [hd]; push_cast; ring,
        Or.inr ht', ?_, ⟨_, by rw [List.append_assoc]⟩⟩
      · simp [mockStep, hcp, hp, heqw]
      · show TraceOkOn (c.d + ((min cfg.chunkSize (cfg.totalSize - sent) : Nat) : Int))
          ((c.trace ++
            [(c.d, ((sub64 cfg.totalSize resumeFrom : Nat) : Int) +
              (c.d - ((sub64 sent resumeFrom : Nat) : Int)))]) ++
            [(c.d + ((min cfg.chunkSize (cfg.totalSize - sent) : Nat) : Int),
              ((sub64 cfg.totalSize resumeFrom : Nat) : Int) +
                (c.d - ((sub64 sent resumeFrom : Nat) : Int)))])
        refine traceOkOn_append _ _ hTr1 (by omega) (fun _ => ?_)
        rw [ht', hd]
        omega

lemma mockLoop_light (cfg : MockConfig) (sched : Nat → ChunkCtl) (resumeFrom : Nat)
    (off : Nat) :
    ∀ fuel idx sent c, (off : Int) ≤ c.d →
      (off : Int) ≤ (mockLoop cfg sched resumeFrom fuel idx sent c).ctrs.d ∧
      (∃ tl, (mockLoop cfg sched resumeFrom fuel idx sent c).ctrs.trace =
        c.trace ++ tl) ∧
      (∀ ev ∈ (mockLoop cfg sched resumeFrom fuel idx sent c).events,
        nonTerminal ev = true ∧ progressBelow off ev = false) := by
  intro fuel
  induction fuel with
  | zero =>
    intro idx sent c h
    exact ⟨by simpa [mockLoop] using h, ⟨[], by simp [mockLoop]⟩,
      by simp [mockLoop]⟩
  | succ n ih =>
    intro idx sent c h
    by_cases hlt : sent < cfg.totalSize
    · obtain ⟨cont, toSend, c', evs, heq, hdle, ⟨tl1, htl1⟩, hevs⟩ :=
        mockStep_light cfg (sched idx) resumeFrom sent c off h
      have hoff' : (off : Int) ≤ c'.d := le_trans h hdle
      cases cont
      · have hout : mockLoop cfg sched resumeFrom (n + 1) idx sent c =
            { aborted := true, idx := idx, sent := sent, ctrs := c', events := evs } := by
          simp [mockLoop, hlt, heq]
        rw [hout]
        exact ⟨hoff', ⟨tl1, htl1⟩, hevs⟩
      · obtain ⟨ih1, ⟨tl2, ih2⟩, ih3⟩ := ih (idx + 1) (sent + toSend) c' hoff'
        have hout : mockLoop cfg sched resumeFrom (n + 1) idx sent c =
            { aborted := (mockLoop cfg sched resumeFrom n (idx + 1) (sent + toSend) c').aborted
              idx := (mockLoop cfg sched resumeFrom n (idx + 1) (sent + toSend) c').idx
              sent := (mockLoop cfg sched resumeFrom n (idx + 1) (sent + toSend) c').sent
              ctrs := (mockLoop cfg sched resumeFrom n (idx + 1) (sent + toSend) c').ctrs
              events := evs ++
                (mockLoop cfg sched resumeFrom n (idx + 1) (sent + toSend) c').events } := by
          simp [mockLoop, hlt, heq]
        rw [hout]
        refine ⟨ih1, ⟨tl1 ++ tl2, by rw [ih2, htl1, List.append_assoc]⟩, ?_⟩
        intro ev hev
        rcases List.mem_append.mp hev with hev1 | hev2
        · exact hevs ev hev1
        · exact ih3 ev hev2
    · exact ⟨by simpa [mockLoop, hlt] using h, ⟨[], by simp [mockLoop, hlt]⟩,
        by simp [mockLoop, hlt]⟩

lemma mockLoop_inv (cfg : MockConfig) (sched : Nat → ChunkCtl) (resumeFrom : Nat)
    (hU : cfg.totalSize < U64) :
    ∀ fuel idx sent c,
      resumeFrom ≤ sent → sent ≤ cfg.totalSize → c.d = (sent : Int) →
      (c.t = 0 ∨ c.t = (cfg.totalSize : Int)) → TraceOk c →
      resumeFrom ≤ (mockLoop cfg sched resumeFrom fuel idx sent c).sent ∧
      (mockLoop cfg sched resumeFrom fuel idx sent c).sent ≤ cfg.totalSize ∧
      (mockLoop cfg sched resumeFrom fuel idx sent c).ctrs.d =
        (((mockLoop cfg sched resumeFrom fuel idx sent c).sent : Nat) : Int) ∧
      ((mockLoop cfg sched resumeFrom fuel idx sent c).ctrs.t = 0 ∨
        (mockLoop cfg sched resumeFrom fuel idx sent c).ctrs.t =
          (cfg.totalSize : Int)) ∧
      TraceOk (mockLoop cfg sched resumeFrom fuel idx sent c).ctrs ∧
      (∃ tl, (mockLoop cfg sched resumeFrom fuel idx sent c).ctrs.trace =
        c.trace ++ tl) := by
  intro fuel
  induction fuel with
  | zero =>
    intro idx sent c h1 h2 h3 h4 h5
    refine ⟨by simpa [mockLoop] using h1, by simpa [mockLoop] using h2,
      by simpa [mockLoop] using h3, by simpa [mockLoop] using h4,
      by simpa [mockLoop] using h5, ⟨[], by simp [mockLoop]⟩⟩
  | succ n ih =>
    intro idx sent c h1 h2 h3 h4 h5
    by_cases hlt : sent < cfg.totalSize
    · obtain ⟨cont, toSend, c', evs, heq, hor, hsend, hd', ht', hTr', ⟨tl1, htl1⟩⟩ :=
        mockStep_inv cfg (sched idx) resumeFrom sent c hU h1 hlt h3 h4 h5
      cases cont
      · have hts0 : toSend = 0 := hor.resolve_left (by simp)
        have hout : mockLoop cfg sched resumeFrom (n + 1) idx sent c =
            { aborted := true, idx := idx, sent := sent, ctrs := c', events := evs } := by
          simp [mockLoop, hlt, heq]
        rw [hout]
        refine ⟨h1, h2, ?_, ht', hTr', ⟨tl1, htl1⟩⟩
        rw [hd', hts0]
        simp
      · obtain ⟨ih1, ih2, ih3, ih4, ih5, ⟨tl2, ihtl⟩⟩ :=
          ih (idx + 1) (sent + toSend) c' (le_trans h1 (Nat.le_add_right _ _))
            hsend hd' ht' hTr'
        have hout : mockLoop cfg sched resumeFrom (n + 1) idx sent c =
            { aborted := (mockLoop cfg sched resumeFrom n (idx + 1) (sent + toSend) c').aborted
              idx := (mockLoop cfg sched resumeFrom n (idx + 1) (sent + toSend) c').idx
              sent := (mockLoop cfg sched resumeFrom n (idx + 1) (sent + toSend) c').sent
              ctrs := (mockLoop cfg sched resumeFrom n (idx + 1) (sent + toSend) c').ctrs
              events := evs ++
                (mockLoop cfg sched resumeFrom n (idx + 1) (sent + toSend) c').events } := by
          simp [mockLoop, hlt, heq]
        rw [hout]
        exact ⟨ih1, ih2, ih3, ih4, ih5,
          ⟨tl1 ++ tl2, by rw [ihtl, htl1, List.append_assoc]⟩⟩
    · refine ⟨by simpa [mockLoop, hlt] using h1, by simpa [mockLoop, hlt] using h2,
        by simpa [mockLoop, hlt] using h3, by simpa [mockLoop, hlt] using h4,
        by simpa [mockLoop, hlt] using h5, ⟨[], by simp [mockLoop, hlt]⟩⟩

lemma progressCallback_trace (b : Bool) (c : Ctrs) (dltotal dlnow : Int) :
    (progressCallback b c dltotal dlnow).2.1.d = c.d ∧
    (∃ tl, (progressCallback b c dltotal dlnow).2.1.trace = c.trace ++ tl) := by
  cases b
  · by_cases h : (0 : Int) < dltotal
    · rw [progressCallback_false_pos c dltotal dlnow h]
      exact ⟨rfl, ⟨_, rfl⟩⟩
    · rw [progressCallback_false_nonpos c dltotal dlnow h]
      exact ⟨rfl, ⟨[], by simp⟩⟩
  · rw [progressCallback_true]
    exact ⟨rfl, ⟨[], by simp⟩⟩

lemma progressCallback_light (b : Bool) (c : Ctrs) (dltotal dlnow : Int) (off : Nat)
    (hoff : (off : Int) ≤ c.d) :
    (off : Int) ≤ (progressCallback b c dltotal dlnow).2.1.d ∧
    (∃ tl, (progressCallback b c dltotal dlnow).2.1.trace = c.trace ++ tl) ∧
    (∀ ev ∈ (progressCallback b c dltotal dlnow).2.2,
      nonTerminal ev = true ∧ progressBelow off ev = false) := by
  obtain ⟨hdc, htc⟩ := progressCallback_trace b c dltotal dlnow
  refine ⟨by rw [hdc]; exact hoff, htc, ?_⟩
  cases b
  · by_cases h : (0 : Int) < dltotal
    · rw [progressCallback_false_pos c dltotal dlnow h]
      exact progress_cons_facts off hoff (by simp)
    · rw [progressCallback_false_nonpos c dltotal dlnow h]
      exact progress_cons_facts off hoff (by simp)
  · rw [progressCallback_true]
    simp

lemma progressCallback_traceOk (b : Bool) (c : Ctrs) (dltotal dlnow : Int)
    (hdl : dlnow ≤ dltotal) (hTr : TraceOk c) :
    TraceOk (progressCallback b c dltotal dlnow).2.1 := by
  cases b
  · by_cases h : (0 : Int) < dltotal
    · rw [progressCallback_false_pos c dltotal dlnow h]
      show TraceOkOn c.d (c.trace ++ [(c.d, dltotal + (c.d - dlnow))])
      exact traceOkOn_append _ _ hTr (le_refl _) (fun _ => by omega)
    · rw [progressCallback_false_nonpos c dltotal dlnow h]
      exact hTr
  · rw [progressCallback_true]
    exact hTr

lemma mockPerform_light (cfg : MockConfig) (sched : Nat → ChunkCtl)
    (resumeFrom : Nat) (c0 : Ctrs) (off : Nat) (hoff : (off : Int) ≤ c0.d) :
    (off : Int) ≤ (mockPerform cfg sched resumeFrom c0).ctrs.d ∧
    (∃ tl, (mockPerform cfg sched resumeFrom c0).ctrs.trace = c0.trace ++ tl) ∧
    (∀ ev ∈ (mockPerform cfg sched resumeFrom c0).events,
      nonTerminal ev = true ∧ progressBelow off ev = false) := by
  by_cases hq : cfg.returnResult ≠ CurlResult.OK ∧
      cfg.returnResult ≠ CurlResult.ABORTED_BY_CALLBACK
  · simp only [mockPerform, if_pos hq]
    exact ⟨hoff, ⟨[], by simp⟩, by simp⟩
  · by_cases hr : 0 < resumeFrom ∧ ¬ cfg.supportsRange
    · simp only [mockPerform, if_neg hq, if_pos hr]
      exact ⟨hoff, ⟨[], by simp⟩, by simp⟩
    · obtain ⟨hl1, ⟨tlL, hlt⟩, hl3⟩ :=
        mockLoop_light cfg sched resumeFrom off (cfg.totalSize + 1) 0 resumeFrom c0 hoff
      by_cases hab :
          (mockLoop cfg sched resumeFrom (cfg.totalSize + 1) 0 resumeFrom c0).aborted
      · simp only [mockPerform, if_neg hq, if_neg hr, if_pos hab]
        exact ⟨hl1, ⟨tlL, hlt⟩, hl3⟩
      · obtain ⟨hf1, ⟨tlF, hft⟩, hf3⟩ := progressCallback_light
          (sched (mockLoop cfg sched resumeFrom
            (cfg.totalSize + 1) 0 resumeFrom c0).idx).cancelAtProgress
          (mockLoop cfg sched resumeFrom (cfg.totalSize + 1) 0 resumeFrom c0).ctrs
          ((cfg.totalSize : Nat) : Int)
          ((sub64 cfg.totalSize resumeFrom : Nat) : Int) off hl1
        rcases hpc : progressCallback
            (sched (mockLoop cfg sched resumeFrom
              (cfg.totalSize + 1) 0 resumeFrom c0).idx).cancelAtProgress
            (mockLoop cfg sched resumeFrom (cfg.totalSize + 1) 0 resumeFrom c0).ctrs
            ((cfg.totalSize : Nat) : Int)
            ((sub64 cfg.totalSize resumeFrom : Nat) : Int) with ⟨b1, c1, evs1⟩
        rw [hpc] at hf1 hft hf3
        simp only [mockPerform, if_neg hq, if_neg hr, if_neg hab, hpc]
        refine ⟨hf1, ⟨tlL ++ tlF, by rw [hft, hlt, List.append_assoc]⟩, ?_⟩
        intro ev hev
        rcases List.mem_append.mp hev with hev1 | hev2
        · exact hl3 ev hev1
        · exact hf3 ev hev2

lemma mockPerform_inv (cfg : MockConfig) (sched : Nat → ChunkCtl)
    (resumeFrom : Nat) (c0 : Ctrs) (hU : cfg.totalSize < U64)
    (hrt : resumeFrom ≤ cfg.totalSize) (hd : c0.d = (resumeFrom : Int))
    (ht0 : c0.t = 0) (hTr : TraceOk c0) :
    TraceOk (mockPerform cfg sched resumeFrom c0).ctrs ∧
    (∃ tl, (mockPerform cfg sched resumeFrom c0).ctrs.trace = c0.trace ++ tl) := by
  by_cases hq : cfg.returnResult ≠ CurlResult.OK ∧
      cfg.returnResult ≠ CurlResult.ABORTED_BY_CALLBACK
  · simp only [mockPerform, if_pos hq]
    exact ⟨hTr, ⟨[], by simp⟩⟩
  · by_cases hr : 0 < resumeFrom ∧ ¬ cfg.supportsRange
    · simp only [mockPerform, if_neg hq, if_pos hr]
      exact ⟨hTr, ⟨[], by simp⟩⟩
    · obtain ⟨hi1, hi2, hi3, hi4, hi5, ⟨tlL, hlt⟩⟩ :=
        mockLoop_inv cfg sched resumeFrom hU (cfg.totalSize + 1) 0 resumeFrom c0
          (le_refl _) hrt hd (Or.inl ht0) hTr
      by_cases hab :
          (mockLoop cfg sched resumeFrom (cfg.totalSize + 1) 0 resumeFrom c0).aborted
      · simp only [mockPerform, if_neg hq, if_neg hr, if_pos hab]
        exact ⟨hi5, ⟨tlL, hlt⟩⟩
      · have hdl : ((sub64 cfg.totalSize resumeFrom : Nat) : Int) ≤
            ((cfg.totalSize : Nat) : Int) := by
          rw [sub64_eq hrt hU]
          omega
        have hfok := progressCallback_traceOk
          (sched (mockLoop cfg sched resumeFrom
            (cfg.totalSize + 1) 0 resumeFrom c0).idx).cancelAtProgress
          (mockLoop cfg sched resumeFrom (cfg.totalSize + 1) 0 resumeFrom c0).ctrs
          ((cfg.totalSize : Nat) : Int)
          ((sub64 cfg.totalSize resumeFrom : Nat) : Int) hdl hi5
        obtain ⟨hfd, ⟨tlF, hft⟩⟩ := progressCallback_trace
          (sched (mockLoop cfg sched resumeFrom
            (cfg.totalSize + 1) 0 resumeFrom c0).idx).cancelAtProgress
          (mockLoop cfg sched resumeFrom (cfg.totalSize + 1) 0 resumeFrom c0).ctrs
          ((cfg.totalSize : Nat) : Int)
          ((sub64 cfg.totalSize resumeFrom : Nat) : Int)
        rcases hpc : progressCallback
            (sched (mockLoop cfg sched resumeFrom
              (cfg.totalSize + 1) 0 resumeFrom c0).idx).cancelAtProgress
            (mockLoop cfg sched resumeFrom (cfg.totalSize + 1) 0 resumeFrom c0).ctrs
            ((cfg.totalSize : Nat) : Int)
            ((sub64 cfg.totalSize resumeFrom : Nat) : Int) with ⟨b1, c1, evs1⟩
        rw [hpc] at hfok hft
        simp only [mockPerform, if_neg hq, if_neg hr, if_neg hab, hpc]
        exact ⟨hfok, ⟨tlL ++ tlF, by rw [hft, hlt, List.append_assoc]⟩⟩

lemma nonTerminal_classifiers {ev : Event} (h : nonTerminal ev = true) :
    isCompletedEv ev = false ∧ isErrorEv ev = false ∧ isCancelledEv ev = false := by
  cases ev <;> simp_all [nonTerminal, isCompletedEv, isErrorEv, isCancelledEv]

lemma countP_zero_of_all {evs : List Event} {p : Event → Bool}
    (hall : ∀ ev ∈ evs, p ev = false) : evs.countP p = 0 := by
  rw [List.countP_eq_zero]
  intro a ha
  simp [hall a ha]

lemma resolveOutcome_cancel (st : DownloadState) (r : CurlResult) (code : Int)
    (e : String) (d t : Int) :
    resolveOutcome true st r code e d t =
      (DownloadState.CANCELLED, [Event.cancelled]) := by
  simp [resolveOutcome]

lemma resolveOutcome_paused (r : CurlResult) (code : Int) (e : String) (d t : Int) :
    resolveOutcome false DownloadState.PAUSED r code e d t =
      (DownloadState.CANCELLED, [Event.cancelled]) := by
  simp [resolveOutcome]

lemma resolveOutcome_ok_low (st : DownloadState) (hst : st ≠ DownloadState.PAUSED)
    (code : Int) (hc : code < 400) (e : String) (d t : Int) :
    resolveOutcome false st CurlResult.OK code e d t =
      (DownloadState.COMPLETED,
       [Event.progress d (if 0 < t then t else d) 100, Event.completed]) := by
  simp [resolveOutcome, hst, not_le.mpr hc]

lemma resolveOutcome_ok_high (st : DownloadState) (hst : st ≠ DownloadState.PAUSED)
    (code : Int) (hc : 400 ≤ code) (e : String) (d t : Int) :
    resolveOutcome false st CurlResult.OK code e d t =
      (DownloadState.ERROR, [Event.error (r"HTTP error: " ++ toString code)]) := by
  simp [resolveOutcome, hst, hc]

lemma doDownload_run (outputPath : String) (fileSize : Nat) (cfg : MockConfig)
    (sched : Nat → ChunkCtl) (cancelAtExit : Bool) (stateAtExit : DownloadState) :
    doDownload outputPath fileSize false false cfg sched cancelAtExit stateAtExit =
      { finalState := (resolveOutcome cancelAtExit stateAtExit
          (mockPerform cfg sched fileSize (seedCtrs fileSize)).result
          (mockPerform cfg sched fileSize (seedCtrs fileSize)).httpCode
          (mockLastError cfg)
          (mockPerform cfg sched fileSize (seedCtrs fileSize)).ctrs.d
          (mockPerform cfg sched fileSize (seedCtrs fileSize)).ctrs.t).1
        ctrs := (mockPerform cfg sched fileSize (seedCtrs fileSize)).ctrs
        events := (mockPerform cfg sched fileSize (seedCtrs fileSize)).events ++
          (resolveOutcome cancelAtExit stateAtExit
            (mockPerform cfg sched fileSize (seedCtrs fileSize)).result
            (mockPerform cfg sched fileSize (seedCtrs fileSize)).httpCode
            (mockLastError cfg)
            (mockPerform cfg sched fileSize (seedCtrs fileSize)).ctrs.d
            (mockPerform cfg sched fileSize (seedCtrs fileSize)).ctrs.t).2
        resumeFromCalls := if 0 < fileSize then [fileSize] else []
        performResult :=
          some (mockPerform cfg sched fileSize (seedCtrs fileSize)).result
        performHttpCode :=
          some (mockPerform cfg sched fileSize (seedCtrs fileSize)).httpCode } := by
  rfl

lemma doDownload_finalState (outputPath : String) (fileSize : Nat)
    (cfg : MockConfig) (sched : Nat → ChunkCtl) (cancelAtExit : Bool)
    (stateAtExit : DownloadState) :
    (doDownload outputPath fileSize false false cfg sched cancelAtExit
      stateAtExit).finalState =
      (resolveOutcome cancelAtExit stateAtExit
        (mockPerform cfg sched fileSize (seedCtrs fileSize)).result
        (mockPerform cfg sched fileSize (seedCtrs fileSize)).httpCode
        (mockLastError cfg)
        (mockPerform cfg sched fileSize (seedCtrs fileSize)).ctrs.d
        (mockPerform cfg sched fileSize (seedCtrs fileSize)).ctrs.t).1 := rfl

lemma doDownload_events (outputPath : String) (fileSize : Nat)
    (cfg : MockConfig) (sched : Nat → ChunkCtl) (cancelAtExit : Bool)
    (stateAtExit : DownloadState) :
    (doDownload outputPath fileSize false false cfg sched cancelAtExit
      stateAtExit).events =
      (mockPerform cfg sched fileSize (seedCtrs fileSize)).events ++
      (resolveOutcome cancelAtExit stateAtExit
        (mockPerform cfg sched fileSize (seedCtrs fileSize)).result
        (mockPerform cfg sched fileSize (seedCtrs fileSize)).httpCode
        (mockLastError cfg)
        (mockPerform cfg sched fileSize (seedCtrs fileSize)).ctrs.d
        (mockPerform cfg sched fileSize (seedCtrs fileSize)).ctrs.t).2 := rfl

lemma doDownload_ctrs (outputPath : String) (fileSize : Nat)
    (cfg : MockConfig) (sched : Nat → ChunkCtl) (cancelAtExit : Bool)
    (stateAtExit : DownloadState) :
    (doDownload outputPath fileSize false false cfg sched cancelAtExit
      stateAtExit).ctrs =
      (mockPerform cfg sched fileSize (seedCtrs fileSize)).ctrs := rfl

lemma doDownload_resumeCalls (outputPath : String) (fileSize : Nat)
    (cfg : MockConfig) (sched : Nat → ChunkCtl) (cancelAtExit : Bool)
    (stateAtExit : DownloadState) :
    (doDownload outputPath fileSize false false cfg sched cancelAtExit
      stateAtExit).resumeFromCalls =
      (if 0 < fileSize then [fileSize] else []) := rfl

lemma seed_d_nonneg (fileSize : Nat) : ((0 : Nat) : Int) ≤ (seedCtrs fileSize).d := by
  simp [seedCtrs]

lemma perform_nonTerminal (cfg : MockConfig) (sched : Nat → ChunkCtl)
    (fileSize : Nat) :
    ∀ ev ∈ (mockPerform cfg sched fileSize (seedCtrs fileSize)).events,
      nonTerminal ev = true := by
  intro ev hev
  exact ((mockPerform_light cfg sched fileSize (seedCtrs fileSize) 0
    (seed_d_nonneg fileSize)).2.2 ev hev).1

lemma counts_append_perform (cfg : MockConfig) (sched : Nat → ChunkCtl)
    (fileSize : Nat) (tailEvs : List Event) (p : Event → Bool)
    (hp : ∀ ev, nonTerminal ev = true → p ev = false) :
    ((mockPerform cfg sched fileSize (seedCtrs fileSize)).events ++
      tailEvs).countP p = tailEvs.countP p := by
  rw [List.countP_append, countP_zero_of_all
    (fun ev hev => hp ev (perform_nonTerminal cfg sched fileSize ev hev))]
  simp

lemma foldl_no_null : ∀ (ops : List RegOp) (l : List ObsPtr),
    (∀ q ∈ l, q ≠ (none : ObsPtr)) →
    ∀ q ∈ ops.foldl regStep l, q ≠ (none : ObsPtr)
  | [], l, h => by simpa using h
  | op :: rest, l, h => by
    rw [List.foldl_cons]
    apply foldl_no_null rest
    match op with
    | RegOp.add p =>
      match p with
      | none => simpa [regStep, addObserver] using h
      | some a =>
        by_cases hm : (some a : ObsPtr) ∈ l
        · simpa [regStep, addObserver, hm] using h
        · intro q hq
          rw [regStep] at hq
          simp only [addObserver, if_neg hm] at hq
          rcases List.mem_append.mp hq with hql | hqs
          · exact h q hql
          · simp at hqs
            subst hqs
            simp
    | RegOp.remove p =>
      intro q hq
      exact h q (List.mem_of_mem_filter hq)

/-! ### Claim theorems -/

/-- Claim C3: `startDownload(url, outputPath)` returns `false` when
the current state is `DOWNLOADING` (Active) or `PAUSED`, leaving the
whole engine — state, counters, control flags, stored request —
unchanged; from any other state it resets both counters to `0` and
both control flags to `false`, stores the new URL and output path,
moves the state to `DOWNLOADING` and returns `true`.  (The worker
thread launch itself is a thread operation outside the state model;
the state transition and return value it accompanies are verified
here.) -/
theorem C3_startDownload_spec (eng : Engine) (url outputPath : String) :
    (eng.state = DownloadState.DOWNLOADING ∨ eng.state = DownloadState.PAUSED →
      startDownload eng url outputPath = (eng, false)) ∧
    (¬(eng.state = DownloadState.DOWNLOADING ∨ eng.state = DownloadState.PAUSED) →
      startDownload eng url outputPath =
        ({ state := DownloadState.DOWNLOADING, downloadedBytes := 0, totalBytes := 0
           pauseRequested := false, cancelRequested := false
           url := url, outputPath := outputPath }, true)) := by
  constructor <;> intro h <;> simp [startDownload, h]

/-- Witness for C3: a paused engine rejects `startDownload` without
any change, and an idle engine accepts it with the reset applied. -/
theorem C3_startDownload_witness :
    startDownload (pause engActive) srcUrl outPath = (pause engActive, false) ∧
    startDownload engIdle srcUrl outPath =
      ({ state := DownloadState.DOWNLOADING, downloadedBytes := 0, totalBytes := 0
         pauseRequested := false, cancelRequested := false
         url := srcUrl, outputPath := outPath }, true) :=
  ⟨(C3_startDownload_spec (pause engActive) srcUrl outPath).1 (Or.inr (by decide)),
   (C3_startDownload_spec engIdle srcUrl outPath).2 (by decide)⟩

/-- Claim C9: `addObserver` is idempotent and `removeObserver` of an
absent observer is a no-op; an observer registered any number of times
(three below, via the witness) receives each delivered event exactly
once, because event fan-out delivers once per registry entry and the
registry keeps a single entry per observer. -/
theorem C9_observer_registry (l : List ObsPtr) (p : ObsPtr) (o : Nat)
    (h : (some o : ObsPtr) ∉ l) :
    addObserver (addObserver l p) p = addObserver l p ∧
    (p ∉ l → removeObserver l p = l) ∧
    receiveCount
      (addObserver (addObserver (addObserver l (some o)) (some o)) (some o))
      (some o) = 1 := by
  refine ⟨?_, ?_, ?_⟩
  · match p with
    | none => simp [addObserver]
    | some a =>
      by_cases hm : (some a : ObsPtr) ∈ l
      · simp [addObserver, hm]
      · simp [addObserver, hm]
  · intro hp
    rw [removeObserver, List.filter_eq_self]
    intro a ha
    simp only [decide_eq_true_eq]
    exact fun heq => hp (heq ▸ ha)
  · have a1 : addObserver l (some o) = l ++ [some o] := by
      simp [addObserver, h]
    have a2 : addObserver (l ++ [some o]) (some o) = l ++ [some o] := by
      simp [addObserver]
    rw [a1, a2, a2, receiveCount, List.countP_append]
    have h0 : l.countP (fun q => decide (q = (some o : ObsPtr))) = 0 := by
      rw [List.countP_eq_zero]
      intro a ha
      simp only [decide_eq_true_eq]
      exact fun heq => h (heq ▸ ha)
    simp [h0]

/-- Witness for C9: a concrete registry holding observers 1 and 2;
registering observer 7 three times leaves one entry, so one delivery. -/
theorem C9_observer_registry_witness :
    (some 7 : ObsPtr) ∉ ([some 1, some 2] : List ObsPtr) ∧
    addObserver (addObserver [some 1, some 2] (some 7)) (some 7) =
      addObserver [some 1, some 2] (some 7) ∧
    removeObserver [some 1, some 2] (some 7) = [some 1, some 2] ∧
    receiveCount
      (addObserver (addObserver (addObserver [some 1, some 2] (some 7)) (some 7))
        (some 7)) (some 7) = 1 :=
  ⟨by decide,
   (C9_observer_registry [some 1, some 2] (some 7) 7 (by decide)).1,
   (C9_observer_registry [some 1, some 2] (some 7) 7 (by decide)).2.1 (by decide),
   (C9_observer_registry [some 1, some 2] (some 7) 7 (by decide)).2.2⟩

/-- Claim C10 (implicit): `addObserver` of a null handle is a guarded
no-op; consequently a registry built from the empty one by any
sequence of add/remove operations never holds a null handle, and no
notification is ever dispatched through a null handle (its delivery
count is zero for every event). -/
theorem C10_null_observer_guard (l : List ObsPtr) (ops : List RegOp) :
    addObserver l none = l ∧
    (applyOps ops).all (fun q => decide (q ≠ (none : ObsPtr))) = true ∧
    receiveCount (applyOps ops) none = 0 := by
  have hnull : ∀ q ∈ applyOps ops, q ≠ (none : ObsPtr) :=
    foldl_no_null ops [] (by simp)
  refine ⟨rfl, ?_, ?_⟩
  · simp only [List.all_eq_true, decide_eq_true_eq]
    exact hnull
  · rw [receiveCount, List.countP_eq_zero]
    intro a ha
    simp only [decide_eq_true_eq]
    exact hnull a ha

/-- Claim C6: in a progress-callback invocation with `cancelRequested`
unset and a positive transport-reported total, the worker stores
`totalBytes := dltotal + (downloadedBytes - dlnow)` (reported total
plus bytesTransferred minus the reported delivered-so-far count) and
then delivers exactly one progress event carrying the current absolute
downloaded count, the recomputed total and the percent; when
`downloadedBytes = offset + dlnow` (writes have kept pace), the stored
total equals the resume offset plus the transport-reported total. -/
theorem C6_progress_recompute (c : Ctrs) (dltotal dlnow : Int)
    (h : 0 < dltotal) :
    progressCallback false c dltotal dlnow =
      (false,
       { d := c.d, t := dltotal + (c.d - dlnow)
         trace := c.trace ++ [(c.d, dltotal + (c.d - dlnow))] },
       [Event.progress c.d (dltotal + (c.d - dlnow))
          (percentOf c.d (dltotal + (c.d - dlnow)))]) ∧
    (∀ offset : Int, c.d = offset + dlnow →
      dltotal + (c.d - dlnow) = offset + dltotal) := by
  exact ⟨progressCallback_false_pos c dltotal dlnow h,
    fun off hoff => by omega⟩

/-- Witness for C6: a resumed transfer at offset 1024 with a reported
remaining total of 1024 and zero delivered so far stores
`totalBytes = 2048` and emits one progress event at 50 percent. -/
theorem C6_progress_recompute_witness :
    (0 : Int) < 1024 ∧
    progressCallback false { d := 1024, t := 0, trace := [] } 1024 0 =
      (false, { d := 1024, t := 2048, trace := [(1024, 2048)] },
       [Event.progress 1024 2048 50]) ∧
    (1024 : Int) + ((1024 : Int) - 0) = 1024 + 1024 := by
  refine ⟨by decide, ?_, ?_⟩
  · rw [(C6_progress_recompute { d := 1024, t := 0, trace := [] } 1024 0
      (by decide)).1]
    norm_num [percentOf]
  · exact (C6_progress_recompute { d := 1024, t := 0, trace := [] } 1024 0
      (by decide)).2 1024 (by decide)

/-- Claim C2: when `cancelRequested` is observed set at the worker's
outcome resolution after `perform` returns, the attempt ends in state
`CANCELLED` with exactly one `cancelled()` event, zero error events
and zero `completed()` events, regardless of the transport's reported
result and status code (and regardless of a lingering paused state). -/
theorem C2_cancel_observed_at_exit (outputPath : String) (fileSize : Nat)
    (cfg : MockConfig) (sched : Nat → ChunkCtl) (stateAtExit : DownloadState) :
    (doDownload outputPath fileSize false false cfg sched true
      stateAtExit).finalState = DownloadState.CANCELLED ∧
    (doDownload outputPath fileSize false false cfg sched true
      stateAtExit).events.countP isCancelledEv = 1 ∧
    (doDownload outputPath fileSize false false cfg sched true
      stateAtExit).events.countP isErrorEv = 0 ∧
    (doDownload outputPath fileSize false false cfg sched true
      stateAtExit).events.countP isCompletedEv = 0 := by
  refine ⟨?_, ?_, ?_, ?_⟩
  · rw [doDownload_finalState, resolveOutcome_cancel]
  · rw [doDownload_events, resolveOutcome_cancel,
      counts_append_perform cfg sched fileSize [Event.cancelled] isCancelledEv
        (fun ev hev => (nonTerminal_classifiers hev).2.2)]
    decide
  · rw [doDownload_events, resolveOutcome_cancel,
      counts_append_perform cfg sched fileSize [Event.cancelled] isErrorEv
        (fun ev hev => (nonTerminal_classifiers hev).2.1)]
    decide
  · rw [doDownload_events, resolveOutcome_cancel,
      counts_append_perform cfg sched fileSize [Event.cancelled] isCompletedEv
        (fun ev hev => (nonTerminal_classifiers hev).1)]
    decide

/-- Claim C1 (amended): a pause requested after the transfer has fully
drained, landing before the worker's outcome resolution reads the
state, leaves the state `PAUSED` at exit; the worker's exit guard then
resolves the attempt to `CANCELLED` with exactly one `cancelled()`
event and no `completed()` event — the attempt does not complete
normally.  Only a pause whose compare-and-swap lands after the
worker's post-perform state read is unobservable. -/
theorem C1_pause_at_exit_cancels (outputPath : String) (fileSize : Nat)
    (cfg : MockConfig) (sched : Nat → ChunkCtl) :
    (doDownload outputPath fileSize false false cfg sched false
      DownloadState.PAUSED).finalState = DownloadState.CANCELLED ∧
    (doDownload outputPath fileSize false false cfg sched false
      DownloadState.PAUSED).events.countP isCancelledEv = 1 ∧
    (doDownload outputPath fileSize false false cfg sched false
      DownloadState.PAUSED).events.countP isCompletedEv = 0 := by
  refine ⟨?_, ?_, ?_⟩
  · rw [doDownload_finalState, resolveOutcome_paused]
  · rw [doDownload_events, resolveOutcome_paused,
      counts_append_perform cfg sched fileSize [Event.cancelled] isCancelledEv
        (fun ev hev => (nonTerminal_classifiers hev).2.2)]
    decide
  · rw [doDownload_events, resolveOutcome_paused,
      counts_append_perform cfg sched fileSize [Event.cancelled] isCompletedEv
        (fun ev hev => (nonTerminal_classifiers hev).1)]
    decide

/-- Counterexample to claim C1 as stated: a 2048-byte transfer fully
drains (the transport result is OK, status 200), and a `pause()` that
lands while `perform` has not yet returned moves the engine state from
`DOWNLOADING` to `PAUSED`; the worker then observes `cancelRequested`
unset but the state still `PAUSED`, and resolves the attempt to
`CANCELLED` with one `cancelled()` event and zero `completed()`
events — not to `Completed` with `completed()` as the claim states. -/
theorem C1_pause_after_drain_counterexample :
    (pause engActive).state = DownloadState.PAUSED ∧
    (mockPerform cfg2048 schedNone 0 (seedCtrs 0)).result = CurlResult.OK ∧
    (mockPerform cfg2048 schedNone 0 (seedCtrs 0)).httpCode = 200 ∧
    (doDownload outPath 0 false false cfg2048 schedNone false
      DownloadState.PAUSED).finalState = DownloadState.CANCELLED ∧
    (doDownload outPath 0 false false cfg2048 schedNone false
      DownloadState.PAUSED).events.countP isCompletedEv = 0 ∧
    (doDownload outPath 0 false false cfg2048 schedNone false
      DownloadState.PAUSED).events.countP isCancelledEv = 1 :=
  ⟨by decide, by decide, by decide, by decide, by decide, by decide⟩

/-- Claim C4 (amended): when `cancelRequested` is unset at exit, the
transport result is success, the reported status code is below the
error class, and additionally the worker's state read at exit is not
`PAUSED`, the worker emits a final progress event with percent exactly
100 followed by `completed()`, stores `COMPLETED`, and the attempt has
exactly one `completed()` and zero error or cancelled events. -/
theorem C4_success_completion (outputPath : String) (fileSize : Nat)
    (cfg : MockConfig) (sched : Nat → ChunkCtl) (stateAtExit : DownloadState)
    (hst : stateAtExit ≠ DownloadState.PAUSED)
    (hres : (mockPerform cfg sched fileSize (seedCtrs fileSize)).result =
      CurlResult.OK)
    (hcode : (mockPerform cfg sched fileSize (seedCtrs fileSize)).httpCode < 400) :
    (doDownload outputPath fileSize false false cfg sched false
      stateAtExit).finalState = DownloadState.COMPLETED ∧
    (∃ pre d t, (doDownload outputPath fileSize false false cfg sched false
      stateAtExit).events = pre ++ [Event.progress d t 100, Event.completed]) ∧
    (doDownload outputPath fileSize false false cfg sched false
      stateAtExit).events.countP isCompletedEv = 1 ∧
    (doDownload outputPath fileSize false false cfg sched false
      stateAtExit).events.countP isErrorEv = 0 ∧
    (doDownload outputPath fileSize false false cfg sched false
      stateAtExit).events.countP isCancelledEv = 0 := by
  refine ⟨?_, ?_, ?_, ?_, ?_⟩
  · rw [doDownload_finalState, hres, resolveOutcome_ok_low stateAtExit hst _ hcode]
  · rw [doDownload_events, hres, resolveOutcome_ok_low stateAtExit hst _ hcode]
    exact ⟨_, _, _, rfl⟩
  · rw [doDownload_events, hres, resolveOutcome_ok_low stateAtExit hst _ hcode,
      counts_append_perform cfg sched fileSize _ isCompletedEv
        (fun ev hev => (nonTerminal_classifiers hev).1)]
    simp [List.countP_cons, isCompletedEv]
  · rw [doDownload_events, hres, resolveOutcome_ok_low stateAtExit hst _ hcode,
      counts_append_perform cfg sched fileSize _ isErrorEv
        (fun ev hev => (nonTerminal_classifiers hev).2.1)]
    simp [List.countP_cons, isErrorEv]
  · rw [doDownload_events, hres, resolveOutcome_ok_low stateAtExit hst _ hcode,
      counts_append_perform cfg sched fileSize _ isCancelledEv
        (fun ev hev => (nonTerminal_classifiers hev).2.2)]
    simp [List.countP_cons, isCancelledEv]

/-- Counterexample to claim C4 as stated: in the spec's own scenario
(total 4096, chunk 1024), with `cancelRequested` unset at exit, the
transport result OK and status 200, an attempt whose exit state read
is `PAUSED` (a late pause) resolves to `CANCELLED` with zero
`completed()` events, although every hypothesis of the claim holds. -/
theorem C4_success_completion_counterexample :
    (mockPerform cfg4096 schedNone 0 (seedCtrs 0)).result = CurlResult.OK ∧
    (mockPerform cfg4096 schedNone 0 (seedCtrs 0)).httpCode = 200 ∧
    (doDownload outPath 0 false false cfg4096 schedNone false
      DownloadState.PAUSED).finalState = DownloadState.CANCELLED ∧
    (doDownload outPath 0 false false cfg4096 schedNone false
      DownloadState.PAUSED).events.countP isCompletedEv = 0 :=
  ⟨by decide, by decide, by decide, by decide⟩

/-- Witness for C4: the spec scenario (4096 bytes, chunks of 1024, no
pause or cancel) ends `COMPLETED` with exactly one `completed()`,
zero error and zero cancelled events. -/
theorem C4_success_completion_witness :
    (mockPerform cfg4096 schedNone 0 (seedCtrs 0)).result = CurlResult.OK ∧
    (mockPerform cfg4096 schedNone 0 (seedCtrs 0)).httpCode < 400 ∧
    (doDownload outPath 0 false false cfg4096 schedNone false
      DownloadState.DOWNLOADING).finalState = DownloadState.COMPLETED ∧
    (doDownload outPath 0 false false cfg4096 schedNone false
      DownloadState.DOWNLOADING).events.countP isCompletedEv = 1 ∧
    (doDownload outPath 0 false false cfg4096 schedNone false
      DownloadState.DOWNLOADING).events.countP isErrorEv = 0 ∧
    (doDownload outPath 0 false false cfg4096 schedNone false
      DownloadState.DOWNLOADING).events.countP isCancelledEv = 0 := by
  have h := C4_success_completion outPath 0 cfg4096 schedNone
    DownloadState.DOWNLOADING (by decide) (by decide) (by decide)
  exact ⟨by decide, by decide, h.1, h.2.2.1, h.2.2.2.1, h.2.2.2.2⟩

/-- Claim C7 (amended): when `cancelRequested` is unset at exit, the
transport result is success, the reported status code is error-class
(`≥ 400`), and additionally the worker's state read at exit is not
`PAUSED`, the state becomes `ERROR` (Failed) and exactly one error
event is emitted, whose message is `HTTP error: <code>` and therefore
references the status code, with zero `completed()` events. -/
theorem C7_http_error_failed (outputPath : String) (fileSize : Nat)
    (cfg : MockConfig) (sched : Nat → ChunkCtl) (stateAtExit : DownloadState)
    (hst : stateAtExit ≠ DownloadState.PAUSED)
    (hres : (mockPerform cfg sched fileSize (seedCtrs fileSize)).result =
      CurlResult.OK)
    (hcode : 400 ≤ (mockPerform cfg sched fileSize (seedCtrs fileSize)).httpCode) :
    (doDownload outputPath fileSize false false cfg sched false
      stateAtExit).finalState = DownloadState.ERROR ∧
    (∃ pre, (doDownload outputPath fileSize false false cfg sched false
      stateAtExit).events = pre ++ [Event.error (r"HTTP error: " ++
        toString (mockPerform cfg sched fileSize (seedCtrs fileSize)).httpCode)]) ∧
    (doDownload outputPath fileSize false false cfg sched false
      stateAtExit).events.countP isErrorEv = 1 ∧
    (doDownload outputPath fileSize false false cfg sched false
      stateAtExit).events.countP isCompletedEv = 0 := by
  refine ⟨?_, ?_, ?_, ?_⟩
  · rw [doDownload_finalState, hres, resolveOutcome_ok_high stateAtExit hst _ hcode]
  · rw [doDownload_events, hres, resolveOutcome_ok_high stateAtExit hst _ hcode]
    exact ⟨_, rfl⟩
  · rw [doDownload_events, hres, resolveOutcome_ok_high stateAtExit hst _ hcode,
      counts_append_perform cfg sched fileSize _ isErrorEv
        (fun ev hev => (nonTerminal_classifiers hev).2.1)]
    simp [List.countP_cons, isErrorEv]
  · rw [doDownload_events, hres, resolveOutcome_ok_high stateAtExit hst _ hcode,
      counts_append_perform cfg sched fileSize _ isCompletedEv
        (fun ev hev => (nonTerminal_classifiers hev).1)]
    simp [List.countP_cons, isCompletedEv]

/-- Counterexample to claim C7 as stated: with `cancelRequested` unset
at exit, transport result OK and status 404 (zero body), an attempt
whose exit state read is `PAUSED` resolves to `CANCELLED` with zero
error events, although every hypothesis of the claim holds. -/
theorem C7_http_error_counterexample :
    (mockPerform cfg404 schedNone 0 (seedCtrs 0)).result = CurlResult.OK ∧
    (mockPerform cfg404 schedNone 0 (seedCtrs 0)).httpCode = 404 ∧
    (doDownload outPath 0 false false cfg404 schedNone false
      DownloadState.PAUSED).finalState = DownloadState.CANCELLED ∧
    (doDownload outPath 0 false false cfg404 schedNone false
      DownloadState.PAUSED).events.countP isErrorEv = 0 :=
  ⟨by decide, by decide, by decide, by decide⟩

/-- Witness for C7: the spec scenario — success result, status 404,
zero body — ends `ERROR` with exactly one error event whose message is
the string `HTTP error: 404`, and no `completed()`. -/
theorem C7_http_error_failed_witness :
    (mockPerform cfg404 schedNone 0 (seedCtrs 0)).result = CurlResult.OK ∧
    400 ≤ (mockPerform cfg404 schedNone 0 (seedCtrs 0)).httpCode ∧
    (doDownload outPath 0 false false cfg404 schedNone false
      DownloadState.DOWNLOADING).finalState = DownloadState.ERROR ∧
    (doDownload outPath 0 false false cfg404 schedNone false
      DownloadState.DOWNLOADING).events.countP isErrorEv = 1 ∧
    (doDownload outPath 0 false false cfg404 schedNone false
      DownloadState.DOWNLOADING).events.countP isCompletedEv = 0 ∧
    Event.error (r"HTTP error: 404") ∈
      (doDownload outPath 0 false false cfg404 schedNone false
        DownloadState.DOWNLOADING).events := by
  have h := C7_http_error_failed outPath 0 cfg404 schedNone
    DownloadState.DOWNLOADING (by decide) (by decide) (by decide)
  exact ⟨by decide, by decide, h.1, h.2.2.1, h.2.2.2, by decide⟩

lemma resolveOutcome_events_shape (cancelAtExit : Bool)
    (stateAtExit : DownloadState) (result : CurlResult) (code : Int)
    (e : String) (d t : Int) :
    (resolveOutcome cancelAtExit stateAtExit result code e d t).2 =
      [Event.cancelled] ∨
    (∃ msg, (resolveOutcome cancelAtExit stateAtExit result code e d t).2 =
      [Event.error msg]) ∨
    (resolveOutcome cancelAtExit stateAtExit result code e d t).2 =
      [Event.progress d (if 0 < t then t else d) 100, Event.completed] := by
  by_cases hc : cancelAtExit
  · rw [hc, resolveOutcome_cancel]
    exact Or.inl rfl
  · have hc' : cancelAtExit = false := by simpa using hc
    rw [hc']
    by_cases hp : stateAtExit = DownloadState.PAUSED
    · rw [hp, resolveOutcome_paused]
      exact Or.inl rfl
    · cases result
      · by_cases h4 : 400 ≤ code
        · rw [resolveOutcome_ok_high stateAtExit hp _ h4]
          exact Or.inr (Or.inl ⟨_, rfl⟩)
        · rw [resolveOutcome_ok_low stateAtExit hp _ (by omega)]
          exact Or.inr (Or.inr rfl)
      · exact Or.inr (Or.inl ⟨r"Download aborted: " ++ e,
          by simp [resolveOutcome, hp]⟩)
      · exact Or.inr (Or.inl ⟨r"Download failed: " ++ e,
          by simp [resolveOutcome, hp]⟩)
      · exact Or.inr (Or.inl ⟨r"Network error: " ++ e,
          by simp [resolveOutcome, hp]⟩)
      · exact Or.inr (Or.inl ⟨r"Server does not support resume (Range not satisfied)",
          by simp [resolveOutcome, hp]⟩)
      · exact Or.inr (Or.inl ⟨r"Download failed: " ++ e,
          by simp [resolveOutcome, hp]⟩)

/-- Claim C5: the resume offset equals the existing byte size of the
destination file (`0` when absent): the worker stores it as the
initial `bytesTransferred` — the first recorded counter pair is
`(fileSize, 0)` — and passes it to the transport as the start offset
exactly when it is positive; consequently no progress event of the
attempt ever carries a `downloaded` value below the offset (for a
1024-byte destination, every progress event reports `≥ 1024`). -/
theorem C5_resume_offset (outputPath : String) (fileSize : Nat)
    (cfg : MockConfig) (sched : Nat → ChunkCtl) (cancelAtExit : Bool)
    (stateAtExit : DownloadState) :
    (doDownload outputPath fileSize false false cfg sched cancelAtExit
      stateAtExit).ctrs.trace.head? = some ((fileSize : Int), 0) ∧
    (doDownload outputPath fileSize false false cfg sched cancelAtExit
      stateAtExit).resumeFromCalls =
      (if 0 < fileSize then [fileSize] else []) ∧
    (doDownload outputPath fileSize false false cfg sched cancelAtExit
      stateAtExit).events.countP (progressBelow fileSize) = 0 := by
  obtain ⟨hd, ⟨tl, htl⟩, hevs⟩ := mockPerform_light cfg sched fileSize
    (seedCtrs fileSize) fileSize (by simp [seedCtrs])
  refine ⟨?_, doDownload_resumeCalls outputPath fileSize cfg sched cancelAtExit
    stateAtExit, ?_⟩
  · rw [doDownload_ctrs, htl]
    simp [seedCtrs]
  · rw [doDownload_events, List.countP_append]
    have hp1 : (mockPerform cfg sched fileSize (seedCtrs fileSize)).events.countP
        (progressBelow fileSize) = 0 :=
      countP_zero_of_all (fun ev hev => (hevs ev hev).2)
    have hp2 : (resolveOutcome cancelAtExit stateAtExit
        (mockPerform cfg sched fileSize (seedCtrs fileSize)).result
        (mockPerform cfg sched fileSize (seedCtrs fileSize)).httpCode
        (mockLastError cfg)
        (mockPerform cfg sched fileSize (seedCtrs fileSize)).ctrs.d
        (mockPerform cfg sched fileSize (seedCtrs fileSize)).ctrs.t).2.countP
        (progressBelow fileSize) = 0 := by
      rcases resolveOutcome_events_shape cancelAtExit stateAtExit
          (mockPerform cfg sched fileSize (seedCtrs fileSize)).result
          (mockPerform cfg sched fileSize (seedCtrs fileSize)).httpCode
          (mockLastError cfg)
          (mockPerform cfg sched fileSize (seedCtrs fileSize)).ctrs.d
          (mockPerform cfg sched fileSize (seedCtrs fileSize)).ctrs.t with
        hsh | ⟨msg, hsh⟩ | hsh <;> rw [hsh]
      · simp [List.countP_cons, progressBelow]
      · simp [List.countP_cons, progressBelow]
      · exact countP_zero_of_all (fun ev hev => by
          rcases List.mem_cons.mp hev with rfl | hev2
          · exact progressBelow_of_le hd
          · simp at hev2
            subst hev2
            rfl)
    rw [hp1, hp2]

/-- Claim C8: over a full attempt, `bytesTransferred` is seeded with
the resume offset (the first recorded counter pair is `(fileSize, 0)`)
and is monotonically non-decreasing across every subsequent counter
store, and no recorded counter pair violates
`totalBytes > 0 → bytesTransferred ≤ totalBytes`. -/
theorem C8_counters_invariant (outputPath : String) (fileSize : Nat)
    (cfg : MockConfig) (sched : Nat → ChunkCtl) (cancelAtExit : Bool)
    (stateAtExit : DownloadState) (h1 : fileSize ≤ cfg.totalSize)
    (h2 : cfg.totalSize < U64) :
    (doDownload outputPath fileSize false false cfg sched cancelAtExit
      stateAtExit).ctrs.trace.head? = some ((fileSize : Int), 0) ∧
    traceMono (doDownload outputPath fileSize false false cfg sched cancelAtExit
      stateAtExit).ctrs.trace = true ∧
    (doDownload outputPath fileSize false false cfg sched cancelAtExit
      stateAtExit).ctrs.trace.countP ctrViol = 0 := by
  have hseedTr : TraceOk (seedCtrs fileSize) := by
    refine ⟨rfl, ?_, ?_⟩
    · simp [seedCtrs]
    · simp [seedCtrs, List.countP_cons, ctrViol]
  obtain ⟨hTr, ⟨tl, htl⟩⟩ := mockPerform_inv cfg sched fileSize
    (seedCtrs fileSize) h2 h1 rfl rfl hseedTr
  obtain ⟨hm, ha, hc⟩ := hTr
  refine ⟨?_, ?_, ?_⟩
  · rw [doDownload_ctrs, htl]
    simp [seedCtrs]
  · rw [doDownload_ctrs]
    exact hm
  · rw [doDownload_ctrs]
    exact hc

/-- Witness for C8: resuming a 2048-byte virtual file from an existing
1024-byte destination yields a counter trace seeded at `(1024, 0)`
that stays monotone and never violates the bound. -/
theorem C8_counters_invariant_witness :
    (1024 : Nat) ≤ cfgResume.totalSize ∧ cfgResume.totalSize < U64 ∧
    (doDownload outPath 1024 false false cfgResume schedNone false
      DownloadState.DOWNLOADING).ctrs.trace.head? = some ((1024 : Int), 0) ∧
    traceMono (doDownload outPath 1024 false false cfgResume schedNone false
      DownloadState.DOWNLOADING).ctrs.trace = true ∧
    (doDownload outPath 1024 false false cfgResume schedNone false
      DownloadState.DOWNLOADING).ctrs.trace.countP ctrViol = 0 := by
  have h := C8_counters_invariant outPath 1024 cfgResume schedNone false
    DownloadState.DOWNLOADING (by decide) (by decide)
  exact ⟨by decide, by decide, h.1, h.2.1, h.2.2⟩

end Downloader
